import Mathlib

/-!
Shallow embedding of
`src/Python Examples/TestMonitor/CreateResultsAndSteps/create_results_and_steps.py`.

Conventions of the embedding:
* Python floats are modelled as exact rationals (`ℚ`); the source performs only
  arithmetic and order comparisons on them.
* Each call to `random.uniform(0, 1)` is modelled as an explicit input in `[0, 1]`
  (a value from a random tape passed to the function that draws it).
* Python `None` becomes `Option.none`; the status dicts
  `{"statusType": ..., "statusName": ...}` become the `Status` structure with
  the same two string fields.
* Python `str(x)` on a number is modelled with `toString : ℚ → String` (an
  injective rendering, as in the source).
* The SystemLink store client (`test_data_manager_client`) is modelled as a
  `Store` state: `create_results` / `create_steps` assign fresh identities from
  a counter and echo the record back with the identity filled in (as the
  service's response does), and every call is logged in the corresponding list.
  The source always submits singleton lists to the client, so the embedded
  client operations take a single record.
-/

namespace CreateResultsAndSteps

/-- A status dict, e.g. `{"statusType": "RUNNING", "statusName": "Running"}`. -/
structure Status where
  statusType : String
  statusName : String
deriving DecidableEq, Repr

/-- The dict `{"statusType": "RUNNING", "statusName": "Running"}` as in the source. -/
def runningStatus : Status := ⟨"RUNNING", "Running"⟩

/-- The dict `{"statusType": "PASSED", "statusName": "Passed"}` as in the source. -/
def passedStatus : Status := ⟨"PASSED", "Passed"⟩

/-- The dict `{"statusType": "FAILED", "statusName": "Failed"}` as in the source. -/
def failedStatus : Status := ⟨"FAILED", "Failed"⟩

/-- One named value record, e.g. `{"name": "current", "value": current}`. -/
structure NamedValue where
  name : String
  value : ℚ
deriving DecidableEq, Repr

/-- One measurement-parameter dict built by `build_power_measurement_params`. -/
structure MeasurementParameter where
  name : String
  status : String
  measurement : String
  units : String
  nominalValue : Option String
  lowLimit : String
  highLimit : String
  comparisonType : String
deriving DecidableEq, Repr

/-- The `{"text": "", "parameters": [...]}` wrapper returned by
`build_power_measurement_params`. -/
structure MeasurementParams where
  text : String
  parameters : List MeasurementParameter
deriving DecidableEq, Repr

/-- A step record as produced by `generate_step_data`.  The `children` and
`startedAt` fields are always `None` in the source. -/
structure Step where
  stepId : Option Nat
  parentId : Option Nat
  resultId : Option Nat
  children : Option (List Nat)
  data : Option MeasurementParams
  dataModel : String
  name : String
  startedAt : Option String
  status : Status
  stepType : String
  totalTimeInSeconds : ℚ
  inputs : Option (List NamedValue)
  outputs : Option (List NamedValue)
deriving DecidableEq, Repr

/-- The top-level test-result record built in `main`.  The fields that `main`
sets to `None` are kept as `Option` fields. -/
structure TestResult where
  id : Option Nat
  programName : String
  status : Status
  systemId : Option String
  hostName : Option String
  properties : Option (List NamedValue)
  serialNumber : String
  operator : String
  partNumber : String
  fileIds : Option (List Nat)
  startedAt : String
  totalTimeInSeconds : ℚ
deriving DecidableEq, Repr

/-- Python `measure_power(current, voltage)`.  The two `random.uniform(0, 1)` draws are
the explicit inputs `u1` and `u2`; the source computes
`current_loss = 1 - u1 * 0.25`, `voltage_loss = 1 - u2 * 0.25` and
`power = current * current_loss * voltage * voltage_loss`, and echoes the
stimuli as inputs and the power as output. -/
def measure_power (u1 u2 : ℚ) (current : ℚ) (voltage : ℚ) :
    ℚ × List NamedValue × List NamedValue :=
  let current_loss : ℚ := 1 - u1 * (1/4)
  let voltage_loss : ℚ := 1 - u2 * (1/4)
  let power := current * current_loss * voltage * voltage_loss
  (power, [⟨"current", current⟩, ⟨"voltage", voltage⟩], [⟨"power", power⟩])

/-- Python `build_power_measurement_params(power, low_limit, high_limit, status)`. -/
def build_power_measurement_params (power low_limit high_limit : ℚ)
    (status : Status) : MeasurementParams :=
  let parameter : MeasurementParameter :=
    { name := "Power Test"
      status := status.statusType
      measurement := toString power
      units := "Watts"
      nominalValue := none
      lowLimit := toString low_limit
      highLimit := toString high_limit
      comparisonType := "GELE" }
  { text := "", parameters := [parameter] }

/-- Python `generate_step_data(name, step_type, inputs, outputs, parameters, status)`.
The `random.uniform(0, 1)` draw used for `totalTimeInSeconds` is the explicit
input `r`. -/
def generate_step_data (r : ℚ) (name : String) (step_type : String)
    (inputs : Option (List NamedValue)) (outputs : Option (List NamedValue))
    (parameters : Option MeasurementParams) (status : Option Status) : Step :=
  let step_status := status.getD runningStatus
  { stepId := none
    parentId := none
    resultId := none
    children := none
    data := parameters
    dataModel := "TestStand"
    name := name
    startedAt := none
    status := step_status
    stepType := step_type
    totalTimeInSeconds := r * 10
    inputs := inputs
    outputs := outputs }

/-- The status test inlined in `create_child_steps`:
`FAILED` if `power < low_limit or power > high_limit`, else `PASSED`
(spec name: `evaluateLeaf`). -/
def evaluate_leaf (power low_limit high_limit : ℚ) : Status :=
  if power < low_limit ∨ power > high_limit then failedStatus else passedStatus

/-- The parent-status aggregation performed by `create_child_steps` when a
child has been processed: a `FAILED` child marks the parent `FAILED`
(via `update_step_status(parent_step, "Failed")`), any other child leaves the
parent's status unchanged (spec name: `foldParent`). -/
def fold_parent (parentStatus childStatus : Status) : Status :=
  if childStatus.statusType = "FAILED" then failedStatus else parentStatus

/-- The end-of-loop rule of `create_child_steps`: a parent still `RUNNING`
after all children is set to `PASSED`, any other status is kept
(spec name: `finalize`). -/
def finalize (s : Status) : Status :=
  if s.statusType = "RUNNING" then passedStatus else s

/-- The state of the modelled store client: a fresh-identity counter and a log
of every call made to it.  Creations are logged as (submitted record, record
echoed back with the assigned identity). -/
structure Store where
  nextId : Nat
  resultCreates : List (TestResult × TestResult)
  stepCreates : List (Step × Step)
  stepUpdates : List Step
  resultUpdates : List TestResult
deriving DecidableEq, Repr

/-- The store before any call has been made. -/
def Store.empty : Store :=
  { nextId := 0, resultCreates := [], stepCreates := [], stepUpdates := [],
    resultUpdates := [] }

/-- Client call `test_data_manager_client.create_results(results=[result])`: the service
assigns a fresh identity and echoes the result back with it. -/
def create_results (st : Store) (result : TestResult) : Store × TestResult :=
  let assigned := { result with id := some st.nextId }
  ({ st with nextId := st.nextId + 1,
             resultCreates := st.resultCreates ++ [(result, assigned)] },
   assigned)

/-- Client call `test_data_manager_client.create_steps(steps=[step])`: the service assigns
a fresh identity and echoes the step back with it. -/
def create_steps (st : Store) (step : Step) : Store × Step :=
  let assigned := { step with stepId := some st.nextId }
  ({ st with nextId := st.nextId + 1,
             stepCreates := st.stepCreates ++ [(step, assigned)] },
   assigned)

/-- Client call `test_data_manager_client.update_steps(steps=[step])`: the call is logged
and the service echoes the submitted step. -/
def update_steps (st : Store) (step : Step) : Store × Step :=
  ({ st with stepUpdates := st.stepUpdates ++ [step] }, step)

/-- Client call `test_data_manager_client.update_results(results=[result])`: the call is
logged and the service echoes the submitted result. -/
def update_results (st : Store) (result : TestResult) : Store × TestResult :=
  ({ st with resultUpdates := st.resultUpdates ++ [result] }, result)

/-- Python `update_step_status(step, status)`: overwrite the step's status dict when
the string is `"Passed"` or `"Failed"` (and only then), then unconditionally
submit the step via `update_steps`. -/
def update_step_status (st : Store) (step : Step) (status : String) :
    Store × Step :=
  let step' :=
    if status = "Passed" then { step with status := passedStatus }
    else if status = "Failed" then { step with status := failedStatus }
    else step
  update_steps st step'

/-- Python `create_parent_step(result_id)`: build a `"Voltage Sweep"` sequence step,
point it at the result, and create it on the store.  `r` is the
`random.uniform(0, 1)` draw consumed by `generate_step_data`. -/
def create_parent_step (st : Store) (r : ℚ) (result_id : Option Nat) :
    Store × Step :=
  let voltage_sweep_step_data :=
    generate_step_data r ("Voltage Sweep") ("SequenceCall") none none none none
  let voltage_sweep_step_data := { voltage_sweep_step_data with resultId := result_id }
  create_steps st voltage_sweep_step_data

/-- One random tape for a voltage sweep: for each voltage index, the two
`random.uniform(0, 1)` draws of `measure_power` and the one draw of
`generate_step_data`. -/
def ChildTape : Type := ℕ → ℚ × ℚ × ℚ

/-- The body of the `for voltage in range(0, 10)` loop of `create_child_steps`,
generalised over the remaining list of voltage values `vs` (the source runs it
on `range(0, 10)`): measure, evaluate the leaf status, build and create the
child step, and mark the parent failed (through the store) when the child
failed. -/
def create_child_steps_loop (ω : ChildTape) (result_id : Option Nat)
    (current low_limit high_limit : ℚ) :
    List ℕ → Store → Step → Store × Step
  | [], st, parent_step => (st, parent_step)
  | voltage :: vs, st, parent_step =>
    let u1 := (ω voltage).1
    let u2 := (ω voltage).2.1
    let r := (ω voltage).2.2
    let m := measure_power u1 u2 current (voltage : ℚ)
    let power := m.1
    let inputs := m.2.1
    let outputs := m.2.2
    let status := evaluate_leaf power low_limit high_limit
    let test_parameters :=
      build_power_measurement_params power low_limit high_limit status
    let measure_power_output_step_data :=
      generate_step_data r ("Measure Power Output") ("NumericLimit")
        (some inputs) (some outputs) (some test_parameters) (some status)
    let measure_power_output_step_data :=
      { measure_power_output_step_data with
          parentId := parent_step.stepId, resultId := result_id }
    let st1 := (create_steps st measure_power_output_step_data).1
    let next :=
      if status.statusType = "FAILED" then update_step_status st1 parent_step ("Failed")
      else (st1, parent_step)
    create_child_steps_loop ω result_id current low_limit high_limit vs next.1 next.2

/-- Python `create_child_steps(parent_step, result_id, current, low_limit, high_limit)`:
run the voltage loop over `range(0, 10)`, then, if the parent is still
`RUNNING`, submit a `"Passed"` update for it. -/
def create_child_steps (st : Store) (ω : ChildTape) (parent_step : Step)
    (result_id : Option Nat) (current low_limit high_limit : ℚ) :
    Store × Step :=
  let out :=
    create_child_steps_loop ω result_id current low_limit high_limit
      (List.range 10) st parent_step
  if out.2.status.statusType = "RUNNING" then
    update_step_status out.1 out.2 ("Passed")
  else out

/-- One random tape per stimulus group: the `generate_step_data` draw of the
group's parent step and the child tape of its voltage sweep. -/
structure GroupTape where
  parentR : ℚ
  children : ChildTape

/-- The body of the `for current in range(0, 10)` loop of `main`: create the
group's parent step, then create its child steps (which also aggregates the
parent's status). -/
def run_group (ω : ℕ → GroupTape) (result_id : Option Nat)
    (low_limit high_limit : ℚ) (st : Store) (current : ℕ) : Store :=
  let p := create_parent_step st (ω current).parentR result_id
  (create_child_steps p.1 (ω current).children p.2 result_id (current : ℚ)
    low_limit high_limit).1

/-- Python `main()`: create the result, run the current sweep over `range(0, 10)`
(each group creating a parent step and its children), then submit the final
`update_results` call with `test_result` — whose status field the sweep never
touched.  `serial` and `started` stand for the `uuid4()` and
`datetime.now()` strings. -/
def main (serial started : String) (ω : ℕ → GroupTape) : Store × TestResult :=
  let low_limit : ℚ := 0
  let high_limit : ℚ := 70
  let test_result : TestResult :=
    { id := none
      programName := "Power Test"
      status := runningStatus
      systemId := none
      hostName := none
      properties := none
      serialNumber := serial
      operator := "John Smith"
      partNumber := "NI-ABC-123-PWR1"
      fileIds := none
      startedAt := started
      totalTimeInSeconds := 0 }
  let created := create_results Store.empty test_result
  let test_result := created.2
  let st := (List.range 10).foldl
    (run_group ω test_result.id low_limit high_limit) created.1
  update_results st test_result

/-! ### Derived notions used to state the properties -/

/-- The list of leaf statuses the voltage loop computes for the voltage values
`vs` under the tape `ω`: for each voltage, the status of the measured power
against the limits. -/
def childStatuses (ω : ChildTape) (current low_limit high_limit : ℚ)
    (vs : List ℕ) : List Status :=
  vs.map fun voltage =>
    evaluate_leaf (measure_power (ω voltage).1 (ω voltage).2.1 current
      (voltage : ℚ)).1 low_limit high_limit

/-- How many times folding the child statuses `cs` into a parent that starts
at `s` actually changes the parent's in-memory status. -/
def foldChangeCount (s : Status) : List Status → Nat
  | [] => 0
  | c :: cs =>
    (if fold_parent s c = s then 0 else 1) + foldChangeCount (fold_parent s c) cs

/-- A status is terminal when it is `Passed` or `Failed`. -/
def isTerminal (s : Status) : Prop := s = passedStatus ∨ s = failedStatus

/-- Once an entry of the list is terminal, every later entry equals it. -/
def terminalSticky : List Status → Prop
  | [] => True
  | s :: rest => (isTerminal s → ∀ t ∈ rest, t = s) ∧ terminalSticky rest

/-- The successive in-memory statuses of a parent step during one group:
the initial status, the status after each child is folded in, and the
finalized status at the end of the group. -/
def parentStatusTrace (init : Status) (cs : List Status) : List Status :=
  List.scanl fold_parent init cs ++ [finalize (List.foldl fold_parent init cs)]

/-- The predicate `createdHasId created rid p` holds when some step already created on the
store (echoed records `created`) has the assigned identity `p` and belongs to
the result `rid`. -/
def createdHasId (created : List Step) (rid p : Nat) : Prop :=
  ∃ t ∈ created, t.stepId = some p ∧ t.resultId = some rid

/-- The identity invariant over a log of step creations (pairs of submitted
record and echoed record), given the records `created` before the log starts:
every submitted step carries `resultId = some rid`, and its `parentId`, when
present, is the assigned identity of a step created strictly earlier for the
same result. -/
def chainOK (rid : Nat) : List Step → List (Step × Step) → Prop
  | _, [] => True
  | created, c :: rest =>
    c.1.resultId = some rid ∧
    (∀ p, c.1.parentId = some p → createdHasId created rid p) ∧
    chainOK rid (created ++ [c.2]) rest

/-- The identity invariant of a store reachable in a sweep for result `rid`:
`chainOK` over its whole creation log. -/
def storeInv (rid : Nat) (st : Store) : Prop :=
  chainOK rid [] st.stepCreates

/-- The in-memory parent step held by the orchestrator refers (via `stepId`)
to a step already created on the store for result `rid`. -/
def parentOK (rid : Nat) (st : Store) (parent : Step) : Prop :=
  ∀ p, parent.stepId = some p →
    createdHasId (st.stepCreates.map Prod.snd) rid p

/-- The all-zero random tape: no current or voltage loss, zero elapsed times. -/
def zeroTape : ChildTape := fun _ => ((0 : ℚ), (0 : ℚ), (0 : ℚ))

/-- The all-zero group tapes. -/
def zeroGroups : ℕ → GroupTape := fun _ => ⟨0, zeroTape⟩

/-- A freshly created `"Voltage Sweep"` parent step (status `Running`), as
`create_parent_step` returns it for result `0` when the store assigns it
identity `1`. -/
def cxParent : Step :=
  { generate_step_data 0 ("Voltage Sweep") ("SequenceCall") none none none none with
      resultId := some 0, stepId := some 1 }

/-! ### Unfolding lemmas for the store operations -/

@[simp]
theorem create_steps_fst_stepCreates (st : Store) (s : Step) :
    (create_steps st s).1.stepCreates =
      st.stepCreates ++ [(s, { s with stepId := some st.nextId })] := rfl

@[simp]
theorem create_steps_fst_stepUpdates (st : Store) (s : Step) :
    (create_steps st s).1.stepUpdates = st.stepUpdates := rfl

@[simp]
theorem create_steps_fst_resultUpdates (st : Store) (s : Step) :
    (create_steps st s).1.resultUpdates = st.resultUpdates := rfl

@[simp]
theorem create_steps_snd (st : Store) (s : Step) :
    (create_steps st s).2 = { s with stepId := some st.nextId } := rfl

@[simp]
theorem create_results_fst_resultUpdates (st : Store) (r : TestResult) :
    (create_results st r).1.resultUpdates = st.resultUpdates := rfl

@[simp]
theorem create_results_fst_stepCreates (st : Store) (r : TestResult) :
    (create_results st r).1.stepCreates = st.stepCreates := rfl

@[simp]
theorem create_results_snd (st : Store) (r : TestResult) :
    (create_results st r).2 = { r with id := some st.nextId } := rfl

@[simp]
theorem update_results_fst_resultUpdates (st : Store) (r : TestResult) :
    (update_results st r).1.resultUpdates = st.resultUpdates ++ [r] := rfl

@[simp]
theorem update_results_fst_stepCreates (st : Store) (r : TestResult) :
    (update_results st r).1.stepCreates = st.stepCreates := rfl

@[simp]
theorem update_results_snd (st : Store) (r : TestResult) :
    (update_results st r).2 = r := rfl

@[simp]
theorem update_step_status_fst_stepCreates (st : Store) (step : Step) (s : String) :
    (update_step_status st step s).1.stepCreates = st.stepCreates := rfl

@[simp]
theorem update_step_status_fst_resultUpdates (st : Store) (step : Step) (s : String) :
    (update_step_status st step s).1.resultUpdates = st.resultUpdates := rfl

@[simp]
theorem update_step_status_fst_stepUpdates_length (st : Store) (step : Step) (s : String) :
    (update_step_status st step s).1.stepUpdates.length = st.stepUpdates.length + 1 := by
  unfold update_step_status update_steps
  simp

@[simp]
theorem update_step_status_snd_stepId (st : Store) (step : Step) (s : String) :
    (update_step_status st step s).2.stepId = step.stepId := by
  unfold update_step_status update_steps
  split
  · rfl
  · split <;> rfl

theorem update_step_status_failed (st : Store) (step : Step) :
    update_step_status st step ("Failed") =
      ({ st with stepUpdates := st.stepUpdates ++ [{ step with status := failedStatus }] },
       { step with status := failedStatus }) := by
  unfold update_step_status update_steps
  rw [if_neg (by decide), if_pos rfl]

theorem update_step_status_passed (st : Store) (step : Step) :
    update_step_status st step ("Passed") =
      ({ st with stepUpdates := st.stepUpdates ++ [{ step with status := passedStatus }] },
       { step with status := passedStatus }) := by
  unfold update_step_status update_steps
  rw [if_pos rfl]

/-! ### Characterisation of the voltage loop -/

theorem create_child_steps_loop_snd (ω : ChildTape) (rid : Option Nat)
    (cur lo hi : ℚ) :
    ∀ (vs : List ℕ) (st : Store) (parent : Step),
      (create_child_steps_loop ω rid cur lo hi vs st parent).2 =
        { parent with status :=
            List.foldl fold_parent parent.status (childStatuses ω cur lo hi vs) } := by
  intro vs
  induction vs with
  | nil => intro st parent; rfl
  | cons v vs ih =>
    intro st parent
    simp only [create_child_steps_loop]
    by_cases h :
        (evaluate_leaf (measure_power (ω v).1 (ω v).2.1 cur (v : ℚ)).1 lo hi).statusType
          = "FAILED"
    · rw [if_pos h, update_step_status_failed, ih]
      simp [childStatuses, fold_parent, h]
    · rw [if_neg h, ih]
      simp [childStatuses, fold_parent, h]

theorem create_child_steps_loop_updates (ω : ChildTape) (rid : Option Nat)
    (cur lo hi : ℚ) :
    ∀ (vs : List ℕ) (st : Store) (parent : Step),
      (create_child_steps_loop ω rid cur lo hi vs st parent).1.stepUpdates.length =
        st.stepUpdates.length +
          (childStatuses ω cur lo hi vs).countP (fun s => s.statusType == "FAILED") := by
  intro vs
  induction vs with
  | nil => intro st parent; simp [create_child_steps_loop, childStatuses]
  | cons v vs ih =>
    intro st parent
    simp only [create_child_steps_loop]
    by_cases h :
        (evaluate_leaf (measure_power (ω v).1 (ω v).2.1 cur (v : ℚ)).1 lo hi).statusType
          = "FAILED"
    · rw [if_pos h, update_step_status_failed, ih]
      simp [childStatuses, List.countP_cons, h, update_steps]
      omega
    · rw [if_neg h, ih]
      simp [childStatuses, List.countP_cons, h]

theorem create_child_steps_loop_resultUpdates (ω : ChildTape) (rid : Option Nat)
    (cur lo hi : ℚ) :
    ∀ (vs : List ℕ) (st : Store) (parent : Step),
      (create_child_steps_loop ω rid cur lo hi vs st parent).1.resultUpdates =
        st.resultUpdates := by
  intro vs
  induction vs with
  | nil => intro st parent; rfl
  | cons v vs ih =>
    intro st parent
    simp only [create_child_steps_loop]
    by_cases h :
        (evaluate_leaf (measure_power (ω v).1 (ω v).2.1 cur (v : ℚ)).1 lo hi).statusType
          = "FAILED"
    · rw [if_pos h, update_step_status_failed, ih]
      simp
    · rw [if_neg h, ih]
      simp

theorem create_child_steps_snd_status (st : Store) (ω : ChildTape) (parent : Step)
    (rid : Option Nat) (cur lo hi : ℚ) :
    (create_child_steps st ω parent rid cur lo hi).2.status =
      finalize (List.foldl fold_parent parent.status
        (childStatuses ω cur lo hi (List.range 10))) := by
  simp only [create_child_steps]
  rw [create_child_steps_loop_snd]
  by_cases h : (List.foldl fold_parent parent.status
      (childStatuses ω cur lo hi (List.range 10))).statusType = "RUNNING"
  · simp [h, update_step_status_passed, finalize]
  · simp [h, finalize]
    rw [create_child_steps_loop_snd]

theorem create_child_steps_fst_resultUpdates (st : Store) (ω : ChildTape)
    (parent : Step) (rid : Option Nat) (cur lo hi : ℚ) :
    (create_child_steps st ω parent rid cur lo hi).1.resultUpdates =
      st.resultUpdates := by
  simp only [create_child_steps]
  split
  · rw [update_step_status_fst_resultUpdates, create_child_steps_loop_resultUpdates]
  · rw [create_child_steps_loop_resultUpdates]

theorem run_group_resultUpdates (ω : ℕ → GroupTape) (rid : Option Nat)
    (lo hi : ℚ) (st : Store) (c : ℕ) :
    (run_group ω rid lo hi st c).resultUpdates = st.resultUpdates := by
  simp only [run_group, create_parent_step]
  rw [create_child_steps_fst_resultUpdates]
  simp

theorem foldl_run_group_resultUpdates (ω : ℕ → GroupTape) (rid : Option Nat)
    (lo hi : ℚ) :
    ∀ (l : List ℕ) (st : Store),
      (l.foldl (run_group ω rid lo hi) st).resultUpdates = st.resultUpdates := by
  intro l
  induction l with
  | nil => intro st; rfl
  | cons c l ih => intro st; rw [List.foldl_cons, ih, run_group_resultUpdates]

/-! ### Facts about the aggregation operations -/

theorem fold_parent_failed_left (c : Status) :
    fold_parent failedStatus c = failedStatus := by
  unfold fold_parent
  split <;> rfl

theorem fold_parent_cases (s c : Status) :
    fold_parent s c = s ∨ fold_parent s c = failedStatus := by
  unfold fold_parent
  split
  · exact Or.inr rfl
  · exact Or.inl rfl

theorem foldl_fold_parent_failed :
    ∀ cs : List Status, List.foldl fold_parent failedStatus cs = failedStatus := by
  intro cs
  induction cs with
  | nil => rfl
  | cons c cs ih => rw [List.foldl_cons, fold_parent_failed_left, ih]

theorem scanl_fold_parent_failed :
    ∀ (cs : List Status) (t : Status),
      t ∈ List.scanl fold_parent failedStatus cs → t = failedStatus := by
  intro cs
  induction cs with
  | nil =>
    intro t ht
    simpa [List.scanl_nil] using ht
  | cons c cs ih =>
    intro t ht
    rw [List.scanl_cons, fold_parent_failed_left] at ht
    rcases List.mem_append.mp ht with h | h
    · simpa using h
    · exact ih t h

theorem parentStatusTrace_failed (cs : List Status) :
    ∀ t ∈ parentStatusTrace failedStatus cs, t = failedStatus := by
  intro t ht
  unfold parentStatusTrace at ht
  rcases List.mem_append.mp ht with h | h
  · exact scanl_fold_parent_failed cs t h
  · rw [List.mem_singleton] at h
    rw [h, foldl_fold_parent_failed]
    decide

theorem terminal_of_nonpassed (init : Status)
    (hinit : init = runningStatus ∨ init = failedStatus)
    (hterm : isTerminal init) : init = failedStatus := by
  rcases hinit with h | h
  · subst h
    rcases hterm with h' | h' <;> exact absurd h' (by decide)
  · exact h

theorem terminalSticky_trace_aux :
    ∀ (cs : List Status) (init : Status),
      init = runningStatus ∨ init = failedStatus →
      terminalSticky (parentStatusTrace init cs) := by
  intro cs
  induction cs with
  | nil =>
    intro init hinit
    unfold parentStatusTrace
    simp only [List.scanl_nil, List.foldl_nil, List.singleton_append]
    refine ⟨?_, ?_, trivial⟩
    · intro hterm t ht
      have hfail := terminal_of_nonpassed init hinit hterm
      subst hfail
      simp only [List.mem_singleton] at ht
      rw [ht]
      decide
    · intro _ t ht
      exact absurd ht (List.not_mem_nil t)
  | cons c cs ih =>
    intro init hinit
    have hstep : parentStatusTrace init (c :: cs) =
        init :: parentStatusTrace (fold_parent init c) cs := by
      unfold parentStatusTrace
      simp [List.scanl_cons, List.foldl_cons]
    rw [hstep]
    refine ⟨?_, ?_⟩
    · intro hterm t ht
      have hfail := terminal_of_nonpassed init hinit hterm
      subst hfail
      rw [fold_parent_failed_left] at ht
      exact parentStatusTrace_failed cs t ht
    · apply ih
      rcases fold_parent_cases init c with h | h
      · rw [h]; exact hinit
      · rw [h]; exact Or.inr rfl

/-! ### The identity invariant through the sweep -/

theorem createdHasId_mono {created more : List Step} {rid p : Nat}
    (h : createdHasId created rid p) : createdHasId (created ++ more) rid p := by
  obtain ⟨t, ht, h1, h2⟩ := h
  exact ⟨t, List.mem_append_left _ ht, h1, h2⟩

theorem chainOK_snoc (rid : Nat) :
    ∀ (l : List (Step × Step)) (created : List Step) (c : Step × Step),
      chainOK rid created l →
      c.1.resultId = some rid →
      (∀ p, c.1.parentId = some p →
        createdHasId (created ++ l.map Prod.snd) rid p) →
      chainOK rid created (l ++ [c]) := by
  intro l
  induction l with
  | nil =>
    intro created c hOK h1 h2
    refine ⟨h1, ?_, trivial⟩
    intro p hp
    simpa using h2 p hp
  | cons d l ih =>
    intro created c hOK h1 h2
    obtain ⟨hd1, hd2, hrest⟩ := hOK
    refine ⟨hd1, hd2, ?_⟩
    apply ih _ _ hrest h1
    intro p hp
    have h3 := h2 p hp
    simp only [List.map_cons] at h3
    simpa [List.append_assoc] using h3

theorem storeInv_create_steps {rid : Nat} {st : Store} (s : Step)
    (h : storeInv rid st) (h1 : s.resultId = some rid)
    (h2 : ∀ p, s.parentId = some p →
      createdHasId (st.stepCreates.map Prod.snd) rid p) :
    storeInv rid (create_steps st s).1 := by
  unfold storeInv at h ⊢
  rw [create_steps_fst_stepCreates]
  apply chainOK_snoc rid st.stepCreates [] _ h h1
  intro p hp
  simpa using h2 p hp

theorem parentOK_create_steps {rid : Nat} {st : Store} (s parent : Step)
    (h : parentOK rid st parent) : parentOK rid (create_steps st s).1 parent := by
  intro p hp
  rw [create_steps_fst_stepCreates, List.map_append]
  exact createdHasId_mono (h p hp)

theorem parentOK_update_step_status {rid : Nat} (st : Store) (parent : Step)
    (x : String) (h : parentOK rid st parent) :
    parentOK rid (update_step_status st parent x).1
      (update_step_status st parent x).2 := by
  intro p hp
  rw [update_step_status_fst_stepCreates]
  apply h
  rwa [update_step_status_snd_stepId] at hp

theorem create_child_steps_loop_inv (ω : ChildTape) (rid : Nat) (cur lo hi : ℚ) :
    ∀ (vs : List ℕ) (st : Store) (parent : Step),
      storeInv rid st → parentOK rid st parent →
      storeInv rid
        (create_child_steps_loop ω (some rid) cur lo hi vs st parent).1 ∧
      parentOK rid
        (create_child_steps_loop ω (some rid) cur lo hi vs st parent).1
        (create_child_steps_loop ω (some rid) cur lo hi vs st parent).2 := by
  intro vs
  induction vs with
  | nil => intro st parent h1 h2; exact ⟨h1, h2⟩
  | cons v vs ih =>
    intro st parent h1 h2
    simp only [create_child_steps_loop]
    by_cases h :
        (evaluate_leaf (measure_power (ω v).1 (ω v).2.1 cur (v : ℚ)).1 lo hi).statusType
          = "FAILED"
    · rw [if_pos h]
      refine ih _ _ ?_ ?_
      · unfold storeInv
        rw [update_step_status_fst_stepCreates]
        exact storeInv_create_steps _ h1 rfl (fun p hp => h2 p hp)
      · exact parentOK_update_step_status _ _ _ (parentOK_create_steps _ _ h2)
    · rw [if_neg h]
      refine ih _ _ ?_ ?_
      · exact storeInv_create_steps _ h1 rfl (fun p hp => h2 p hp)
      · exact parentOK_create_steps _ _ h2

theorem create_child_steps_inv (st : Store) (ω : ChildTape) (parent : Step)
    (rid : Nat) (cur lo hi : ℚ) (h1 : storeInv rid st)
    (h2 : parentOK rid st parent) :
    storeInv rid (create_child_steps st ω parent (some rid) cur lo hi).1 := by
  simp only [create_child_steps]
  split
  · have hmain :=
      (create_child_steps_loop_inv ω rid cur lo hi (List.range 10) st parent h1 h2).1
    unfold storeInv at hmain ⊢
    rw [update_step_status_fst_stepCreates]
    exact hmain
  · exact (create_child_steps_loop_inv ω rid cur lo hi (List.range 10) st parent h1 h2).1

theorem create_parent_step_inv (st : Store) (r : ℚ) (rid : Nat)
    (h : storeInv rid st) :
    storeInv rid (create_parent_step st r (some rid)).1 ∧
    parentOK rid (create_parent_step st r (some rid)).1
      (create_parent_step st r (some rid)).2 := by
  constructor
  · apply storeInv_create_steps _ h rfl
    intro p hp
    exact Option.noConfusion hp
  · intro p hp
    simp only [create_parent_step, create_steps_snd] at hp
    simp only [create_parent_step, create_steps_fst_stepCreates, List.map_append,
      List.map_cons, List.map_nil]
    refine ⟨_, List.mem_append_right _ (List.mem_singleton.mpr rfl), ?_, rfl⟩
    simpa using hp

theorem run_group_inv (ω : ℕ → GroupTape) (rid : Nat) (lo hi : ℚ) (st : Store)
    (c : ℕ) (h : storeInv rid st) :
    storeInv rid (run_group ω (some rid) lo hi st c) := by
  simp only [run_group]
  obtain ⟨h1, h2⟩ := create_parent_step_inv st (ω c).parentR rid h
  exact create_child_steps_inv _ _ _ _ _ _ _ h1 h2

theorem foldl_run_group_inv (ω : ℕ → GroupTape) (rid : Nat) (lo hi : ℚ) :
    ∀ (l : List ℕ) (st : Store), storeInv rid st →
      storeInv rid (l.foldl (run_group ω (some rid) lo hi) st) := by
  intro l
  induction l with
  | nil => intro st h; exact h
  | cons c l ih =>
    intro st h
    rw [List.foldl_cons]
    exact ih _ (run_group_inv ω rid lo hi st c h)

/-! ### The claims -/

/-- C1: the claim says the orchestrator derives the result's final status by
folding over the parent statuses and submits it; the code instead submits the
final `update_results` call with the result's status still `Running` for every
run (first conjunct), even though the fold/finalize rule applied to a failing
group (zero-loss tape, current 9, limits [0, 70]) yields `Failed` (second
conjunct). -/
theorem final_result_update_keeps_running_status :
    (∀ (serial started : String) (ω : ℕ → GroupTape),
      ((main serial started ω).1.resultUpdates.map fun r => r.status) =
        [runningStatus]) ∧
    finalize (List.foldl fold_parent runningStatus
      (childStatuses zeroTape 9 0 70 (List.range 10))) = failedStatus := by
  constructor
  · intro serial started ω
    simp [main, foldl_run_group_resultUpdates, Store.empty]
  · with_unfolding_all decide

/-- C2 counterexample: with the zero-loss tape at current 9 and limits
[0, 70], two children fail; the voltage loop submits 2 parent updates while
the fold changes the parent's in-memory status only once, refuting "an update
is submitted exactly when the fold changes the parent's status". -/
theorem parent_update_counterexample :
    (create_child_steps_loop zeroTape (some 0) 9 0 70 (List.range 10)
        Store.empty cxParent).1.stepUpdates.length = 2 ∧
    foldChangeCount cxParent.status
      (childStatuses zeroTape 9 0 70 (List.range 10)) = 1 ∧
    (2 : Nat) ≠ 1 :=
  ⟨by with_unfolding_all decide, by with_unfolding_all decide, by decide⟩

/-- C2 amended: during a group's child loop, a parent update is submitted for
every failing child — whether or not the fold changes the parent's status —
so the number of updates submitted during the loop equals the number of
`FAILED` children, not the number of status changes. -/
theorem parent_update_on_each_failure :
    ∀ (ω : ChildTape) (rid : Option Nat) (cur lo hi : ℚ) (vs : List ℕ)
      (st : Store) (parent : Step),
      (create_child_steps_loop ω rid cur lo hi vs st parent).1.stepUpdates.length =
        st.stepUpdates.length +
          (childStatuses ω cur lo hi vs).countP
            (fun s => s.statusType == "FAILED") :=
  fun ω rid cur lo hi vs st parent =>
    create_child_steps_loop_updates ω rid cur lo hi vs st parent

/-- C3: for limits `lo ≤ hi` the leaf evaluation yields `Passed` exactly when
`lo ≤ m ≤ hi`, yields `Failed` on every value strictly outside the closed
interval, and both boundary values pass. -/
theorem evaluate_leaf_spec (m lo hi : ℚ) (h : lo ≤ hi) :
    (evaluate_leaf m lo hi = passedStatus ↔ lo ≤ m ∧ m ≤ hi) ∧
    (¬(lo ≤ m ∧ m ≤ hi) → evaluate_leaf m lo hi = failedStatus) ∧
    evaluate_leaf lo lo hi = passedStatus ∧
    evaluate_leaf hi lo hi = passedStatus := by
  have hgen : ∀ x : ℚ, evaluate_leaf x lo hi = passedStatus ↔ lo ≤ x ∧ x ≤ hi := by
    intro x
    unfold evaluate_leaf
    by_cases hc : x < lo ∨ x > hi
    · rw [if_pos hc]
      constructor
      · intro heq
        exact absurd heq (by decide)
      · rintro ⟨hx1, hx2⟩
        exact absurd hc (by push_neg; exact ⟨hx1, hx2⟩)
    · rw [if_neg hc]
      push_neg at hc
      exact ⟨fun _ => hc, fun _ => rfl⟩
  have hfail : ∀ x : ℚ, ¬(lo ≤ x ∧ x ≤ hi) →
      evaluate_leaf x lo hi = failedStatus := by
    intro x hcon
    have hc : x < lo ∨ x > hi := by
      rcases lt_or_le x lo with hx | hx
      · exact Or.inl hx
      · rcases le_or_lt x hi with hy | hy
        · exact absurd ⟨hx, hy⟩ hcon
        · exact Or.inr hy
    unfold evaluate_leaf
    rw [if_pos hc]
  exact ⟨hgen m, hfail m, (hgen lo).mpr ⟨le_refl lo, h⟩, (hgen hi).mpr ⟨h, le_refl hi⟩⟩

theorem evaluate_leaf_spec_witness :
    ((0 : ℚ) ≤ 70) ∧
    ((evaluate_leaf 5 0 70 = passedStatus ↔ (0 : ℚ) ≤ 5 ∧ (5 : ℚ) ≤ 70) ∧
     (¬((0 : ℚ) ≤ 5 ∧ (5 : ℚ) ≤ 70) → evaluate_leaf 5 0 70 = failedStatus) ∧
     evaluate_leaf 0 0 70 = passedStatus ∧
     evaluate_leaf 70 0 70 = passedStatus) :=
  ⟨by norm_num, evaluate_leaf_spec 5 0 70 (by norm_num)⟩

/-- C4: folding in a `Failed` child yields `Failed` from every prior parent
status, and a `Passed` child leaves both a `Running` and a `Failed` parent
unchanged. -/
theorem fold_parent_spec :
    (∀ s : Status, fold_parent s failedStatus = failedStatus) ∧
    fold_parent runningStatus passedStatus = runningStatus ∧
    fold_parent failedStatus passedStatus = failedStatus := by
  refine ⟨?_, by decide, by decide⟩
  intro s
  unfold fold_parent
  simp [failedStatus]

/-- C5: `finalize` maps `Running` to `Passed`, fixes `Failed` and `Passed`,
is idempotent, and `create_child_steps` produces a parent whose status is
exactly `finalize` applied once to the fold of the full child set. -/
theorem finalize_spec :
    finalize runningStatus = passedStatus ∧
    finalize failedStatus = failedStatus ∧
    finalize passedStatus = passedStatus ∧
    (∀ s : Status, finalize (finalize s) = finalize s) ∧
    (∀ (st : Store) (ω : ChildTape) (parent : Step) (rid : Option Nat)
        (cur lo hi : ℚ),
      (create_child_steps st ω parent rid cur lo hi).2.status =
        finalize (List.foldl fold_parent parent.status
          (childStatuses ω cur lo hi (List.range 10)))) := by
  refine ⟨by decide, by decide, by decide, ?_, ?_⟩
  · intro s
    by_cases h : s.statusType = "RUNNING" <;> simp [finalize, h, passedStatus]
  · intro st ω parent rid cur lo hi
    exact create_child_steps_snd_status st ω parent rid cur lo hi

/-- C6: over the in-memory status trace of a parent during a group (initial
`Running`, one entry per folded child, then the finalized status), a terminal
status is never overwritten: once an entry is `Passed` or `Failed`, every
later entry equals it; and the trace's last entry is exactly the status
`create_child_steps` leaves on the parent. -/
theorem terminal_status_sticky :
    (∀ cs : List Status, terminalSticky (parentStatusTrace runningStatus cs)) ∧
    (∀ (st : Store) (ω : ChildTape) (parent : Step) (rid : Option Nat)
        (cur lo hi : ℚ),
      (parentStatusTrace parent.status
          (childStatuses ω cur lo hi (List.range 10))).getLast? =
        some ((create_child_steps st ω parent rid cur lo hi).2.status)) := by
  constructor
  · intro cs
    exact terminalSticky_trace_aux cs runningStatus (Or.inl rfl)
  · intro st ω parent rid cur lo hi
    rw [create_child_steps_snd_status]
    unfold parentStatusTrace
    exact List.getLast?_concat _

/-- C7 counterexample: two calls of `generate_step_data` with identical
arguments but different `random.uniform(0, 1)` draws return different step
records (they differ in `totalTimeInSeconds`), so the step factory is not a
pure function of its arguments. -/
theorem generate_step_data_not_pure :
    generate_step_data 0 ("Measure Power Output") ("NumericLimit")
        none none none none ≠
      generate_step_data (1/2) ("Measure Power Output") ("NumericLimit")
        none none none none := by
  with_unfolding_all decide

/-- C7 amended: two calls of `generate_step_data` with identical arguments
return records identical in every field except `totalTimeInSeconds`, which is
`10` times the random draw consumed by each call. -/
theorem generate_step_data_deterministic_modulo_time :
    ∀ (r1 r2 : ℚ) (name step_type : String)
      (inputs outputs : Option (List NamedValue))
      (parameters : Option MeasurementParams) (status : Option Status),
      { generate_step_data r1 name step_type inputs outputs parameters status with
          totalTimeInSeconds := 0 } =
        { generate_step_data r2 name step_type inputs outputs parameters status with
            totalTimeInSeconds := 0 } ∧
      (generate_step_data r1 name step_type inputs outputs parameters
          status).totalTimeInSeconds = r1 * 10 := by
  intro r1 r2 name step_type inputs outputs parameters status
  exact ⟨rfl, rfl⟩

/-- C8: for nonnegative current and voltage and noise draws in `[0, 1]`, the
measured power is the ideal product `current * voltage` scaled by the two
multiplicative loss factors `1 - u * 0.25`, each lying in `[0.75, 1]`, and is
therefore at most the ideal product. -/
theorem measure_power_bounded_loss (c v u1 u2 : ℚ)
    (hc : 0 ≤ c) (hv : 0 ≤ v) (h1 : 0 ≤ u1) (h1' : u1 ≤ 1)
    (h2 : 0 ≤ u2) (h2' : u2 ≤ 1) :
    (3/4 ≤ 1 - u1 * (1/4) ∧ 1 - u1 * (1/4) ≤ 1) ∧
    (3/4 ≤ 1 - u2 * (1/4) ∧ 1 - u2 * (1/4) ≤ 1) ∧
    (measure_power u1 u2 c v).1 =
      (c * v) * ((1 - u1 * (1/4)) * (1 - u2 * (1/4))) ∧
    (measure_power u1 u2 c v).1 ≤ c * v := by
  have hl1 : (3 : ℚ)/4 ≤ 1 - u1 * (1/4) := by linarith
  have hl1' : 1 - u1 * (1/4) ≤ 1 := by linarith
  have hl2 : (3 : ℚ)/4 ≤ 1 - u2 * (1/4) := by linarith
  have hl2' : 1 - u2 * (1/4) ≤ 1 := by linarith
  have heq : (measure_power u1 u2 c v).1 =
      (c * v) * ((1 - u1 * (1/4)) * (1 - u2 * (1/4))) := by
    simp only [measure_power]
    ring
  refine ⟨⟨hl1, hl1'⟩, ⟨hl2, hl2'⟩, heq, ?_⟩
  rw [heq]
  have hcv : 0 ≤ c * v := mul_nonneg hc hv
  have hprod : (1 - u1 * (1/4)) * (1 - u2 * (1/4)) ≤ 1 := by nlinarith
  have hle := mul_le_mul_of_nonneg_left hprod hcv
  simpa using hle

theorem measure_power_bounded_loss_witness :
    ((0 : ℚ) ≤ 2 ∧ (0 : ℚ) ≤ 3 ∧ (0 : ℚ) ≤ 1 ∧ (1 : ℚ) ≤ 1 ∧
      (0 : ℚ) ≤ 0 ∧ (0 : ℚ) ≤ 1) ∧
    ((3/4 ≤ 1 - (1 : ℚ) * (1/4) ∧ 1 - (1 : ℚ) * (1/4) ≤ 1) ∧
     (3/4 ≤ 1 - (0 : ℚ) * (1/4) ∧ 1 - (0 : ℚ) * (1/4) ≤ 1) ∧
     (measure_power 1 0 2 3).1 =
       ((2 : ℚ) * 3) * ((1 - 1 * (1/4)) * (1 - 0 * (1/4))) ∧
     (measure_power 1 0 2 3).1 ≤ (2 : ℚ) * 3) :=
  ⟨by norm_num,
   measure_power_bounded_loss 2 3 1 0 (by norm_num) (by norm_num) (by norm_num)
     (by norm_num) (by norm_num) (by norm_num)⟩

/-- C9: for every run of `main`, the store-assigned result identity `rid`
exists, and the whole step-creation log satisfies the identity invariant:
every submitted step carries `resultId = some rid`, and every submitted step
with a `parentId` points at the assigned identity of a step created strictly
earlier for the same result. -/
theorem step_identity_invariant (serial started : String) (ω : ℕ → GroupTape) :
    ∃ rid : Nat, (main serial started ω).2.id = some rid ∧
      chainOK rid [] (main serial started ω).1.stepCreates := by
  refine ⟨0, by simp [main, Store.empty], ?_⟩
  have h := foldl_run_group_inv ω 0 0 70 (List.range 10)
    (create_results Store.empty
      { id := none
        programName := "Power Test"
        status := runningStatus
        systemId := none
        hostName := none
        properties := none
        serialNumber := serial
        operator := "John Smith"
        partNumber := "NI-ABC-123-PWR1"
        fileIds := none
        startedAt := started
        totalTimeInSeconds := 0 }).1
    (by unfold storeInv; simp; trivial)
  unfold storeInv at h
  simpa [main, Store.empty] using h

/-- C10: calling `update_step_status` with any status string other than
`"Passed"` and `"Failed"` leaves the step record completely unchanged, yet
still submits exactly that step to the store in an `update_steps` call. -/
theorem update_step_status_frame (st : Store) (step : Step) (s : String)
    (h1 : s ≠ "Passed") (h2 : s ≠ "Failed") :
    (update_step_status st step s).2 = step ∧
    (update_step_status st step s).2.status = step.status ∧
    (update_step_status st step s).1 =
      { st with stepUpdates := st.stepUpdates ++ [step] } := by
  unfold update_step_status update_steps
  rw [if_neg h1, if_neg h2]
  exact ⟨rfl, rfl, rfl⟩

theorem update_step_status_frame_witness :
    (("Running" : String) ≠ "Passed" ∧ ("Running" : String) ≠ "Failed") ∧
    ((update_step_status Store.empty cxParent ("Running")).2 = cxParent ∧
     (update_step_status Store.empty cxParent ("Running")).2.status =
       cxParent.status ∧
     (update_step_status Store.empty cxParent ("Running")).1 =
       { Store.empty with stepUpdates := Store.empty.stepUpdates ++ [cxParent] }) :=
  ⟨⟨by decide, by decide⟩,
   update_step_status_frame Store.empty cxParent ("Running") (by decide) (by decide)⟩

end CreateResultsAndSteps
